import Mathlib

/-!
Verification of the pool reconciler in `src/slurm_autoscale.go`
(MagicCastle/slurm-autoscale-tfe).

The program is a single straight-line `main`: read `TFE_WORKSPACE_ID`,
build a TFE client, read the workspace, list its variables, find the one
keyed `"pool"`, JSON-decode its value into a string slice, build a
`map[string]bool` from it, apply the `resume`/`suspend` command with the
expanded node list, collect the map's keys, JSON-encode them, and update
the remote variable, logging whether the serialized value changed.

The embedding below mirrors that control flow.  The Go map
`pool_set : map[string]bool` is modelled as a duplicate-free list of
strings (insertion keeps first occurrences, deletion filters); this is a
deterministic refinement of Go's unspecified map iteration order, and all
set-level statements are phrased via `List.toFinset`, on which the choice
of order is irrelevant.  The external collaborators (`encoding/json` for
a `[]string`, the TFE client) are modelled by executable functions and by
an environment of remote-call results; `hostlist.ExpandNodeList` is kept
abstract: claims quantify over the already-expanded node list.
-/

namespace SlurmAutoscale

/-- A TFE workspace as the program uses it: its ID and its name
(`workspace.ID`, `workspace.Name` in `go-tfe`). -/
structure Workspace where
  id : String
  name : String
deriving DecidableEq

/-- A TFE variable as the program uses it: key, ID and current string
value (`s.Key`, `tfe_pool.ID`, `tfe_pool.Value`). -/
structure TfeVar where
  key : String
  id : String
  value : String
deriving DecidableEq

/-! ### JSON for a string array

`json.Unmarshal([]byte(v), &pool)` with `pool : []string`, and
`json.Marshal(keys)` with `keys : []string`, modelled from Go's
`encoding/json` on the fragment the program exercises: a JSON array of
strings (or `null`, which decodes to the empty slice), surrounded by
optional whitespace, with the standard string escapes; `Marshal` emits
the compact form `["a","b"]` with Go's HTML-safe escaping. -/

/-- The double-quote character. -/
def quoteChar : Char := Char.ofNat 34

/-- The backslash character. -/
def backslashChar : Char := Char.ofNat 92

/-- JSON whitespace (space, tab, newline, carriage return). -/
def isJsonWs (c : Char) : Bool :=
  c = ' ' || c = '\t' || c = '\n' || c = '\r'

/-- Drop leading JSON whitespace. -/
def skipWs : List Char → List Char
  | [] => []
  | c :: cs => if isJsonWs c then skipWs cs else c :: cs

/-- Value of a hexadecimal digit. -/
def hexVal (c : Char) : Option Nat :=
  if '0' ≤ c ∧ c ≤ '9' then some (c.toNat - '0'.toNat)
  else if 'a' ≤ c ∧ c ≤ 'f' then some (c.toNat - 'a'.toNat + 10)
  else if 'A' ≤ c ∧ c ≤ 'F' then some (c.toNat - 'A'.toNat + 10)
  else none

/-- Parse the body of a JSON string (the opening quote already consumed),
returning the decoded characters and the input after the closing quote. -/
def parseStringBody : List Char → Option (List Char × List Char)
  | [] => none
  | c :: rest =>
    if c = quoteChar then some ([], rest)
    else if c = backslashChar then
      match rest with
      | [] => none
      | e :: rs =>
        if e = quoteChar then
          (parseStringBody rs).map (fun p => (quoteChar :: p.1, p.2))
        else if e = backslashChar then
          (parseStringBody rs).map (fun p => (backslashChar :: p.1, p.2))
        else if e = '/' then
          (parseStringBody rs).map (fun p => ('/' :: p.1, p.2))
        else if e = 'n' then
          (parseStringBody rs).map (fun p => ('\n' :: p.1, p.2))
        else if e = 't' then
          (parseStringBody rs).map (fun p => ('\t' :: p.1, p.2))
        else if e = 'r' then
          (parseStringBody rs).map (fun p => ('\r' :: p.1, p.2))
        else if e = 'b' then
          (parseStringBody rs).map (fun p => (Char.ofNat 8 :: p.1, p.2))
        else if e = 'f' then
          (parseStringBody rs).map (fun p => (Char.ofNat 12 :: p.1, p.2))
        else if e = 'u' then
          match rs with
          | h1 :: h2 :: h3 :: h4 :: rs2 =>
            match hexVal h1, hexVal h2, hexVal h3, hexVal h4 with
            | some a, some b, some c2, some d =>
              (parseStringBody rs2).map
                (fun p => (Char.ofNat (((a * 16 + b) * 16 + c2) * 16 + d) :: p.1, p.2))
            | _, _, _, _ => none
          | _ => none
        else none
    else if c.toNat < 32 then none
    else (parseStringBody rest).map (fun p => (c :: p.1, p.2))

/-- Parse the comma-separated string elements of a JSON array, positioned
at the first element; returns them and the input after the closing `]`.
`fuel` bounds the number of elements (any value larger than the input
length is enough). -/
def parseElems : Nat → List Char → Option (List String × List Char)
  | 0, _ => none
  | fuel + 1, input =>
    match skipWs input with
    | [] => none
    | c :: rest =>
      if c = quoteChar then
        match parseStringBody rest with
        | none => none
        | some (s, rest2) =>
          match skipWs rest2 with
          | ',' :: rest3 =>
            match parseElems fuel rest3 with
            | some (ss, rest4) => some (String.mk s :: ss, rest4)
            | none => none
          | ']' :: rest3 => some ([String.mk s], rest3)
          | _ => none
      else none

/-- `json.Unmarshal` of a value into a `[]string`: `none` is the error
case (`log.Fatal(err)` in the program).  A top-level `null` decodes to
the nil slice, hence the empty list. -/
def jsonParseStringArray (v : String) : Option (List String) :=
  match skipWs v.toList with
  | 'n' :: 'u' :: 'l' :: 'l' :: rest =>
    if skipWs rest = [] then some [] else none
  | '[' :: rest =>
    match skipWs rest with
    | [] => none
    | c :: rest2 =>
      if c = ']' then (if skipWs rest2 = [] then some [] else none)
      else
        match parseElems (v.toList.length + 1) (c :: rest2) with
        | some (ss, rest3) => if skipWs rest3 = [] then some ss else none
        | none => none
  | _ => none

/-- Lower-case hexadecimal digit of `n < 16`. -/
def hexDigit (n : Nat) : Char :=
  if n < 10 then Char.ofNat ('0'.toNat + n) else Char.ofNat ('a'.toNat + n - 10)

/-- `encoding/json`'s escaping of one character inside a marshalled
string: quote, backslash, the HTML-escaped `<`, `>`, `&`, and control
characters. -/
def escapeChar (c : Char) : List Char :=
  if c = quoteChar then [backslashChar, quoteChar]
  else if c = backslashChar then [backslashChar, backslashChar]
  else if c = '\n' then [backslashChar, 'n']
  else if c = '\r' then [backslashChar, 'r']
  else if c = '\t' then [backslashChar, 't']
  else if c = '<' then [backslashChar, 'u', '0', '0', '3', 'c']
  else if c = '>' then [backslashChar, 'u', '0', '0', '3', 'e']
  else if c = '&' then [backslashChar, 'u', '0', '0', '2', '6']
  else if c.toNat < 32 then
    [backslashChar, 'u', '0', '0', hexDigit (c.toNat / 16), hexDigit (c.toNat % 16)]
  else [c]

/-- A marshalled JSON string: quoted and escaped. -/
def quoteString (s : String) : List Char :=
  quoteChar :: ((s.toList.map escapeChar).flatten ++ [quoteChar])

/-- `json.Marshal` of a (non-nil) `[]string`: the compact array form. -/
def jsonMarshalStringList (l : List String) : String :=
  String.mk ('[' :: (List.intercalate [','] (l.map quoteString) ++ [']']))

/-! ### The pool set

`pool_set` is a `map[string]bool`; the program only ever stores `true`,
deletes keys, and finally iterates the keys.  The model keeps the keys as
a duplicate-free list in first-insertion order. -/

/-- `pool_set[s] = true`: add a key to the map (no-op when present). -/
def setInsert (l : List String) (s : String) : List String :=
  if s ∈ l then l else l ++ [s]

/-- `delete(pool_set, s)`: remove a key from the map. -/
def setDelete (l : List String) (s : String) : List String :=
  l.filter (fun x => x != s)

/-- The loop `for _, s := range pool { pool_set[s] = true }` building the
working set from the decoded pool array. -/
def buildPoolSet (pool : List String) : List String :=
  pool.foldl setInsert []

/-- The command dispatch: `resume` inserts every expanded node, `suspend`
deletes every expanded node, any other `os.Args[1]` falls through both
branches and leaves the set untouched. -/
def applyCommand (cmd : String) (ps : List String) (nodes : List String) : List String :=
  if cmd = "resume" then nodes.foldl setInsert ps
  else if cmd = "suspend" then nodes.foldl setDelete ps
  else ps

/-! ### The whole invocation -/

/-- The two log messages of the final comparison: `log.Println("Updating
pool ", old, "->", new)` carries both serialized values; the other branch
prints `"no change"`. -/
inductive Report
  | updating (oldVal newVal : String)
  | noChange
deriving DecidableEq

/-- How the process ends: normally (exit 0), via `log.Fatal` with a
diagnostic, or with a Go runtime crash (nil-pointer dereference), which
is not a diagnosed failure. -/
inductive Outcome
  | ok
  | fatal (msg : String)
  | crashed
deriving DecidableEq

/-- Observable behaviour of one invocation: how it ended, the values
passed to `Variables.Update` (in order), and the comparison report, if
reached. -/
structure RunResult where
  outcome : Outcome
  writes : List String
  report : Option Report
deriving DecidableEq

/-- Results of the remote calls, supplied by the store: the
`TFE_WORKSPACE_ID` environment value (`""` when unset), the `NewClient`
error if any, the `Workspaces.ReadByID` result, the `Variables.List`
result, and the `Variables.Update` result as a function of the value
written (the `.ok` payload is the `Value` of the returned variable).
On error, `go-tfe` returns a nil record alongside the error. -/
structure RemoteEnv where
  workspaceId : String
  clientErr : Option String
  workspaceResult : Except String Workspace
  listResult : Except String (List TfeVar)
  updateResult : String → Except String String

/-- The scan `for _, s := range var_list.Items { if s.Key == "pool" {
tfe_pool = s; break } }`: first variable keyed `"pool"`. -/
def findPool (items : List TfeVar) : Option TfeVar :=
  items.find? (fun s => s.key == "pool")

/-- An update call that succeeds and echoes the written value back, the
normal behaviour of the TFE API. -/
def echoUpd : String → Except String String := fun v => Except.ok v

/-- `main`, line by line.  Note two places where the Go code mishandles a
remote error: the `Variables.List` error is discarded (`var_list, _ :=`),
so a failed list leaves `var_list` nil and `var_list.Items` crashes; and
the `Variables.Update` error is only checked after `tfe_pool2.Value` has
been dereferenced, so a failed update crashes on the nil `tfe_pool2`
before reaching `log.Fatal`. -/
def runMain (env : RemoteEnv) (cmd : String) (nodes : List String) : RunResult :=
  if env.workspaceId = "" then
    ⟨.fatal "TFE_WORKSPACE_ID environment variable not set", [], none⟩
  else
    match env.clientErr with
    | some e => ⟨.fatal e, [], none⟩
    | none =>
      match env.workspaceResult with
      | .error e => ⟨.fatal e, [], none⟩
      | .ok workspace =>
        match env.listResult with
        | .error _ => ⟨.crashed, [], none⟩
        | .ok items =>
          match findPool items with
          | none =>
            ⟨.fatal ("pool variable not found in TFE workspace " ++ workspace.name),
              [], none⟩
          | some tfe_pool =>
            match jsonParseStringArray tfe_pool.value with
            | none => ⟨.fatal "json unmarshal error", [], none⟩
            | some pool =>
              let keys := applyCommand cmd (buildPoolSet pool) nodes
              let value := jsonMarshalStringList keys
              match env.updateResult value with
              | .error _ => ⟨.crashed, [value], none⟩
              | .ok newValue =>
                if tfe_pool.value ≠ newValue then
                  ⟨.ok, [value], some (.updating tfe_pool.value newValue)⟩
                else
                  ⟨.ok, [value], some .noChange⟩

/-! ### Set semantics of the pool operations -/

theorem setInsert_toFinset (l : List String) (a : String) :
    (setInsert l a).toFinset = insert a l.toFinset := by
  unfold setInsert
  split
  · rename_i h
    rw [Finset.insert_eq_self.mpr (List.mem_toFinset.mpr h)]
  · ext x
    simp [or_comm]

theorem foldl_setInsert_toFinset (nodes : List String) (l : List String) :
    (nodes.foldl setInsert l).toFinset = l.toFinset ∪ nodes.toFinset := by
  induction nodes generalizing l with
  | nil => simp
  | cons a ns ih =>
    rw [List.foldl_cons, ih, setInsert_toFinset]
    ext x
    simp

theorem setDelete_toFinset (l : List String) (a : String) :
    (setDelete l a).toFinset = l.toFinset.erase a := by
  ext x
  simp only [setDelete, List.mem_toFinset, List.mem_filter, bne_iff_ne, ne_eq,
    Finset.mem_erase]
  tauto

theorem foldl_setDelete_toFinset (nodes : List String) (l : List String) :
    (nodes.foldl setDelete l).toFinset = l.toFinset \ nodes.toFinset := by
  induction nodes generalizing l with
  | nil => simp
  | cons a ns ih =>
    rw [List.foldl_cons, ih, setDelete_toFinset]
    ext x
    simp
    tauto

theorem buildPoolSet_toFinset (pool : List String) :
    (buildPoolSet pool).toFinset = pool.toFinset := by
  simpa using foldl_setInsert_toFinset pool []

theorem applyCommand_resume_toFinset (ps nodes : List String) :
    (applyCommand "resume" ps nodes).toFinset = ps.toFinset ∪ nodes.toFinset := by
  rw [applyCommand, if_pos rfl, foldl_setInsert_toFinset]

theorem applyCommand_suspend_toFinset (ps nodes : List String) :
    (applyCommand "suspend" ps nodes).toFinset = ps.toFinset \ nodes.toFinset := by
  rw [applyCommand, if_neg (by decide), if_pos rfl, foldl_setDelete_toFinset]

theorem applyCommand_other (cmd : String) (ps nodes : List String)
    (h1 : cmd ≠ "resume") (h2 : cmd ≠ "suspend") :
    applyCommand cmd ps nodes = ps := by
  rw [applyCommand, if_neg h1, if_neg h2]

/-! ### The pool set is duplicate-free -/

theorem setInsert_nodup {l : List String} (h : l.Nodup) (a : String) :
    (setInsert l a).Nodup := by
  unfold setInsert
  split
  · exact h
  · rename_i hna
    simp [List.nodup_append, h, hna]

theorem foldl_setInsert_nodup (nodes : List String) {l : List String} (h : l.Nodup) :
    (nodes.foldl setInsert l).Nodup := by
  induction nodes generalizing l with
  | nil => exact h
  | cons a ns ih => exact ih (setInsert_nodup h a)

theorem setDelete_nodup {l : List String} (h : l.Nodup) (a : String) :
    (setDelete l a).Nodup :=
  h.filter _

theorem foldl_setDelete_nodup (nodes : List String) {l : List String} (h : l.Nodup) :
    (nodes.foldl setDelete l).Nodup := by
  induction nodes generalizing l with
  | nil => exact h
  | cons a ns ih => exact ih (setDelete_nodup h a)

theorem buildPoolSet_nodup (pool : List String) : (buildPoolSet pool).Nodup :=
  foldl_setInsert_nodup pool List.nodup_nil

theorem applyCommand_nodup (cmd : String) {ps : List String} (h : ps.Nodup)
    (nodes : List String) : (applyCommand cmd ps nodes).Nodup := by
  unfold applyCommand
  split
  · exact foldl_setInsert_nodup nodes h
  · split
    · exact foldl_setDelete_nodup nodes h
    · exact h

/-! ### Concrete fixtures used by witnesses and counterexamples -/

/-- A concrete workspace. -/
def wsA : Workspace := ⟨"ws-1", "main"⟩

/-- A concrete `pool` variable holding `["a"]`. -/
def varPoolA : TfeVar := ⟨"pool", "var-pool", "[\"a\"]"⟩

/-- A `pool` variable whose value is not valid JSON. -/
def varBad : TfeVar := ⟨"pool", "var-pool", "not-json"⟩

/-- A variable with some other key. -/
def varOther : TfeVar := ⟨"cluster", "var-x", "[]"⟩

/-- A `pool` variable whose stored encoding has a space after the comma:
it denotes the set `{a, b}` but is not the compact form the program
re-serializes. -/
def varSpaced : TfeVar := ⟨"pool", "var-pool", "[\"a\", \"b\"]"⟩

/-- An update call that always fails with a transport error. -/
def failUpd : String → Except String String := fun _ => Except.error "transport error"

/-- Environment for the no-op-detection counterexample. -/
def envC2 : RemoteEnv := ⟨"ws-1", none, .ok wsA, .ok [varSpaced], echoUpd⟩

/-- Environment whose `Variables.List` call fails with a transport error. -/
def envListErr : RemoteEnv := ⟨"ws-1", none, .ok wsA, .error "transport error", echoUpd⟩

/-- Environment whose `Variables.Update` call fails with a transport error. -/
def envUpdErr : RemoteEnv := ⟨"ws-1", none, .ok wsA, .ok [varPoolA], failUpd⟩

/-! ### The claims -/

/-- Claim C1: for every initial pool sequence and expanded node list, the
computed working set is the union of the initial set and the expanded
nodes under `resume`, the initial set minus the expanded nodes under
`suspend`, and the initial set unchanged for any other command value —
silently, the run still completing without error. -/
theorem claim1_command_semantics (pool nodes : List String) :
    ((applyCommand "resume" (buildPoolSet pool) nodes).toFinset
        = pool.toFinset ∪ nodes.toFinset)
    ∧ ((applyCommand "suspend" (buildPoolSet pool) nodes).toFinset
        = pool.toFinset \ nodes.toFinset)
    ∧ (∀ cmd : String, cmd ≠ "resume" → cmd ≠ "suspend" →
        applyCommand cmd (buildPoolSet pool) nodes = buildPoolSet pool)
    ∧ (∀ (cmd wid : String) (ws : Workspace) (items : List TfeVar) (v : TfeVar),
        cmd ≠ "resume" → cmd ≠ "suspend" → wid ≠ "" →
        findPool items = some v → jsonParseStringArray v.value = some pool →
        (runMain ⟨wid, none, .ok ws, .ok items, echoUpd⟩ cmd nodes).outcome = .ok) := by
  refine ⟨?_, ?_, ?_, ?_⟩
  · rw [applyCommand_resume_toFinset, buildPoolSet_toFinset]
  · rw [applyCommand_suspend_toFinset, buildPoolSet_toFinset]
  · intro cmd h1 h2
    exact applyCommand_other cmd _ _ h1 h2
  · intro cmd wid ws items v h1 h2 hwid hv hp
    simp only [runMain, hv, hp, echoUpd]
    rw [if_neg hwid]
    split <;> rfl

/-- Claim C1, witnessed at the unrecognized command `"foo"` with pool
`["a"]` and nodes `["b"]`. -/
theorem claim1_witness :
    (("foo" : String) ≠ "resume" ∧ ("foo" : String) ≠ "suspend"
      ∧ ("ws-1" : String) ≠ "" ∧ findPool [varPoolA] = some varPoolA
      ∧ jsonParseStringArray varPoolA.value = some ["a"])
    ∧ applyCommand "foo" (buildPoolSet ["a"]) ["b"] = buildPoolSet ["a"]
    ∧ (runMain ⟨"ws-1", none, .ok wsA, .ok [varPoolA], echoUpd⟩ "foo" ["b"]).outcome
        = .ok :=
  ⟨by refine ⟨by decide, by decide, by decide, by decide, by decide⟩,
    (claim1_command_semantics ["a"] ["b"]).2.2.1 "foo" (by decide) (by decide),
    (claim1_command_semantics ["a"] ["b"]).2.2.2 "foo" "ws-1" wsA [varPoolA] varPoolA
      (by decide) (by decide) (by decide) (by decide) (by decide)⟩

/-- Claim C2 is refuted: the program decides "no change" by comparing the
old and new serialized values as strings, not as sets.  With the stored
value `["a", "b"]` (a space after the comma) and command `suspend` of the
absent node `"c"`, the computed set equals the original set, yet the
re-serialized compact form differs from the stored string, so the run
reports an update, not "no change". -/
theorem claim2_counterexample :
    jsonParseStringArray "[\"a\", \"b\"]" = some ["a", "b"]
    ∧ (applyCommand "suspend" (buildPoolSet ["a", "b"]) ["c"]).toFinset
        = (["a", "b"] : List String).toFinset
    ∧ (runMain envC2 "suspend" ["c"]).report
        = some (.updating "[\"a\", \"b\"]" "[\"a\",\"b\"]")
    ∧ (runMain envC2 "suspend" ["c"]).report ≠ some .noChange := by
  refine ⟨by decide, by decide, by decide, by decide⟩

/-- Claim C2 (amended): when the update call echoes the written value,
the run reports "no change" if and only if the variable's stored string
equals, character for character, the serialization of the computed set —
string equality of the encodings, not set equality, is what is compared. -/
theorem claim2_report_iff_string_equal
    (wid : String) (ws : Workspace) (items : List TfeVar) (v : TfeVar)
    (pool : List String) (cmd : String) (nodes : List String)
    (hwid : wid ≠ "") (hv : findPool items = some v)
    (hp : jsonParseStringArray v.value = some pool) :
    (runMain ⟨wid, none, .ok ws, .ok items, echoUpd⟩ cmd nodes).report
        = some .noChange
      ↔ v.value = jsonMarshalStringList (applyCommand cmd (buildPoolSet pool) nodes) := by
  simp only [runMain, hv, hp, echoUpd]
  rw [if_neg hwid]
  by_cases h : v.value = jsonMarshalStringList (applyCommand cmd (buildPoolSet pool) nodes)
  · rw [if_neg (by simpa using h)]
    simp [h]
  · rw [if_pos h]
    simp [h]

/-- Claim C2 (amended), witnessed at a stored value that is exactly the
compact serialization of the computed set: `suspend` of an absent node
reports "no change". -/
theorem claim2_witness :
    (("ws-1" : String) ≠ "" ∧ findPool [varPoolA] = some varPoolA
      ∧ jsonParseStringArray varPoolA.value = some ["a"]
      ∧ varPoolA.value
          = jsonMarshalStringList (applyCommand "suspend" (buildPoolSet ["a"]) ["c"]))
    ∧ (runMain ⟨"ws-1", none, .ok wsA, .ok [varPoolA], echoUpd⟩ "suspend" ["c"]).report
        = some .noChange :=
  ⟨⟨by decide, by decide, by decide, by decide⟩,
    (claim2_report_iff_string_equal "ws-1" wsA [varPoolA] varPoolA ["a"] "suspend" ["c"]
      (by decide) (by decide) (by decide)).mpr (by decide)⟩

/-- Claim C3 is refuted by the code as written: a transport error on the
`Variables.List` call is discarded (`var_list, _ :=`), so the program
goes on to dereference the nil list and crashes without a diagnostic;
and a transport error on the `Variables.Update` call is only tested
after `tfe_pool2.Value` has been dereferenced, so the program crashes on
the nil response before reaching its `log.Fatal`.  In both cases the
process dies by runtime crash, not by immediate diagnosed termination at
the failing call. -/
theorem claim3_remote_errors_crash :
    runMain envListErr "resume" ["b"] = ⟨.crashed, [], none⟩
    ∧ runMain envUpdErr "resume" ["b"] = ⟨.crashed, ["[\"a\",\"b\"]"], none⟩ := by
  refine ⟨by decide, by decide⟩

/-- Claim C4: whenever the run reaches serialization with no fatal error
(workspace id set, client and workspace reads fine, pool variable found
and parseable), exactly one update call is made, whatever the update
returns and whether or not the new value equals the old; and no run,
under any environment, makes more than one update call. -/
theorem claim4_write_exactly_once
    (wid : String) (ws : Workspace) (items : List TfeVar) (v : TfeVar)
    (pool : List String) (upd : String → Except String String)
    (cmd : String) (nodes : List String)
    (hwid : wid ≠ "") (hv : findPool items = some v)
    (hp : jsonParseStringArray v.value = some pool) :
    (runMain ⟨wid, none, .ok ws, .ok items, upd⟩ cmd nodes).writes.length = 1
    ∧ ∀ (env : RemoteEnv) (c : String) (ns : List String),
        (runMain env c ns).writes.length ≤ 1 := by
  constructor
  · simp only [runMain, hv, hp]
    rw [if_neg hwid]
    cases hupd : upd (jsonMarshalStringList (applyCommand cmd (buildPoolSet pool) nodes)) with
    | error e => simp [hupd]
    | ok nv =>
      simp only [hupd]
      split <;> rfl
  · intro env c ns
    obtain ⟨wid2, cerr, wres, lres, upd2⟩ := env
    simp only [runMain]
    repeat' split
    all_goals simp

/-- Claim C4, witnessed at a run that reaches serialization. -/
theorem claim4_witness :
    (("ws-1" : String) ≠ "" ∧ findPool [varPoolA] = some varPoolA
      ∧ jsonParseStringArray varPoolA.value = some ["a"])
    ∧ (runMain ⟨"ws-1", none, .ok wsA, .ok [varPoolA], echoUpd⟩ "resume" ["b"]).writes.length
        = 1 :=
  ⟨⟨by decide, by decide, by decide⟩,
    (claim4_write_exactly_once "ws-1" wsA [varPoolA] varPoolA ["a"] echoUpd "resume" ["b"]
      (by decide) (by decide) (by decide)).1⟩

/-- Claim C5: a variable value that does not decode as a string array
makes the run terminate fatally, with no update call attempted. -/
theorem claim5_malformed_value_fatal
    (wid : String) (ws : Workspace) (items : List TfeVar) (v : TfeVar)
    (upd : String → Except String String) (cmd : String) (nodes : List String)
    (hwid : wid ≠ "") (hv : findPool items = some v)
    (hbad : jsonParseStringArray v.value = none) :
    runMain ⟨wid, none, .ok ws, .ok items, upd⟩ cmd nodes
      = ⟨.fatal "json unmarshal error", [], none⟩ := by
  simp only [runMain, hv, hbad]
  rw [if_neg hwid]

/-- Claim C5, witnessed at the literal value `not-json`. -/
theorem claim5_witness :
    (("ws-1" : String) ≠ "" ∧ findPool [varBad] = some varBad
      ∧ jsonParseStringArray varBad.value = none)
    ∧ runMain ⟨"ws-1", none, .ok wsA, .ok [varBad], echoUpd⟩ "resume" ["b"]
        = ⟨.fatal "json unmarshal error", [], none⟩ :=
  ⟨⟨by decide, by decide, by decide⟩,
    claim5_malformed_value_fatal "ws-1" wsA [varBad] varBad echoUpd "resume" ["b"]
      (by decide) (by decide) (by decide)⟩

/-- Claim C6: when no workspace variable is keyed `"pool"`, the run
terminates fatally with a message naming both the missing key and the
workspace name, and no update call is attempted. -/
theorem claim6_missing_pool_fatal
    (wid : String) (ws : Workspace) (items : List TfeVar)
    (upd : String → Except String String) (cmd : String) (nodes : List String)
    (hwid : wid ≠ "") (hnone : findPool items = none) :
    runMain ⟨wid, none, .ok ws, .ok items, upd⟩ cmd nodes
      = ⟨.fatal ("pool variable not found in TFE workspace " ++ ws.name), [], none⟩ := by
  simp only [runMain, hnone]
  rw [if_neg hwid]

/-- Claim C6, witnessed at a variable list holding only a `cluster` key. -/
theorem claim6_witness :
    (("ws-1" : String) ≠ "" ∧ findPool [varOther] = none)
    ∧ runMain ⟨"ws-1", none, .ok wsA, .ok [varOther], echoUpd⟩ "resume" ["b"]
        = ⟨.fatal ("pool variable not found in TFE workspace " ++ wsA.name), [], none⟩ :=
  ⟨⟨by decide, by decide⟩,
    claim6_missing_pool_fatal "ws-1" wsA [varOther] echoUpd "resume" ["b"]
      (by decide) (by decide)⟩

/-- Claim C7: `resume` is idempotent — feeding the pool produced by one
`resume` run back in as the input pool of a second run with the same
expanded node list yields the same final pool set. -/
theorem claim7_resume_idempotent (pool nodes : List String) :
    (applyCommand "resume"
        (buildPoolSet (applyCommand "resume" (buildPoolSet pool) nodes)) nodes).toFinset
      = (applyCommand "resume" (buildPoolSet pool) nodes).toFinset := by
  simp only [applyCommand_resume_toFinset, buildPoolSet_toFinset]
  rw [Finset.union_assoc, Finset.union_self]

/-- Claim C8: `resume` of S and then `suspend` of S, starting from the
empty pool, ends with the empty pool set. -/
theorem claim8_resume_suspend_roundtrip (S : List String) :
    (applyCommand "suspend"
        (buildPoolSet (applyCommand "resume" (buildPoolSet []) S)) S).toFinset = ∅ := by
  simp [applyCommand_suspend_toFinset, buildPoolSet_toFinset,
    applyCommand_resume_toFinset]

/-- Claim C9: the key array that gets serialized and written back has no
duplicate node name, and its length is the number of distinct members of
the computed set, for every input pool array (duplicates included) and
every expanded node list. -/
theorem claim9_written_array_nodup (cmd : String) (pool nodes : List String) :
    (applyCommand cmd (buildPoolSet pool) nodes).Nodup
    ∧ (applyCommand cmd (buildPoolSet pool) nodes).length
        = (applyCommand cmd (buildPoolSet pool) nodes).toFinset.card := by
  have h := applyCommand_nodup cmd (buildPoolSet_nodup pool) nodes
  exact ⟨h, (List.toFinset_card_of_nodup h).symm⟩

/-- Claim C10: a node name absent from the expanded node list is in the
final pool set exactly when it was in the initial pool set, whatever the
command. -/
theorem claim10_frame (cmd : String) (pool nodes : List String) (n : String)
    (h : n ∉ nodes) :
    n ∈ (applyCommand cmd (buildPoolSet pool) nodes).toFinset ↔ n ∈ pool.toFinset := by
  by_cases h1 : cmd = "resume"
  · subst h1
    rw [applyCommand_resume_toFinset, buildPoolSet_toFinset]
    simp [h]
  · by_cases h2 : cmd = "suspend"
    · subst h2
      rw [applyCommand_suspend_toFinset, buildPoolSet_toFinset]
      simp [h]
    · rw [applyCommand_other cmd _ _ h1 h2, buildPoolSet_toFinset]

/-- Claim C10, witnessed at node `"a"`, absent from the node list
`["b"]`, under `resume` on pool `["a"]`. -/
theorem claim10_witness :
    (("a" : String) ∉ (["b"] : List String))
    ∧ (("a" : String) ∈ (applyCommand "resume" (buildPoolSet ["a"]) ["b"]).toFinset
        ↔ ("a" : String) ∈ (["a"] : List String).toFinset) :=
  ⟨by decide, claim10_frame "resume" ["a"] ["b"] "a" (by decide)⟩

end SlurmAutoscale
